import Mathlib

/-!
Shallow embedding of the typed memory-field catalog and codec layer of the
gsc_memory_lib module (RAM field descriptors, binary codecs, party-slot
address arithmetic, ROM bank translation and ROM field access), together
with theorems settling the specification claims about them.

Conventions of the embedding:
* Python byte strings are `List Nat` (each element a byte value).
* Python ints are `Int`; Python `x & 0xFF` on an int is `Int.emod x 256`
  (both yield the nonnegative residue) and `x >> 8` is `Int.ediv x 256`
  (both floor toward negative infinity for a positive divisor).
* A Python function that can raise is `Except String _`.
* The writer callback passed to write_field is modelled by the trace of its
  invocations: a successful call returns `Except.ok` carrying the list of
  `(addr, data)` pairs the writer was invoked with, in order; an error
  raised before any write returns `Except.error` (no invocation happened,
  so the underlying storage is unchanged).
-/

namespace GscMemoryLib

/-- The closed enumeration of field encodings (class Encoding). -/
inductive Encoding where
  | u8
  | u16_le
  | u16_be
  | u24_le
  | u24_bcd
  | bytes
  | text_gsc
deriving DecidableEq, Repr

/-- Immutable RAM field descriptor (dataclass MemField). -/
structure MemField where
  key : String
  addr : Int
  size : Nat
  enc : Encoding
  doc : String := ""
deriving DecidableEq, Repr

/-- Decoder for 3-byte BCD ( def _decode_u24_bcd ): each byte contributes its
high nibble `(x >> 4) & 0xF = x / 16 % 16` then its low nibble
`x & 0xF = x % 16` to a digit list, which is folded by `val = val * 10 + d`. -/
def decode_u24_bcd (b : List Nat) : Nat :=
  let digits := b.foldr (fun x acc => (x / 16 % 16) :: (x % 16) :: acc) ([] : List Nat)
  digits.foldl (fun val d => val * 10 + d) 0

/-- Encoder for little-endian u16 ( def _encode_u16_le ):
`(v & 0xFF, (v >> 8) & 0xFF)`. -/
def encode_u16_le (v : Int) : List Nat :=
  [(Int.emod v 256).toNat, (Int.emod (Int.ediv v 256) 256).toNat]

/-- Encoder for big-endian u16 ( def _encode_u16_be ):
`((v >> 8) & 0xFF, v & 0xFF)`. -/
def encode_u16_be (v : Int) : List Nat :=
  [(Int.emod (Int.ediv v 256) 256).toNat, (Int.emod v 256).toNat]

/-- Encoder for little-endian u24 ( def _encode_u24_le ):
`(v & 0xFF, (v >> 8) & 0xFF, (v >> 16) & 0xFF)`. -/
def encode_u24_le (v : Int) : List Nat :=
  [(Int.emod v 256).toNat, (Int.emod (Int.ediv v 256) 256).toNat,
   (Int.emod (Int.ediv v 65536) 256).toNat]

/-- Encoder for 3-byte BCD ( def _encode_u24_bcd ): clamp `v` below by 0 and
above by 999999, render the clamped value as its 6 decimal digits (the
Python code formats it with "06d" and reads each character back as a digit;
for `n < 10^6` digit `i` of the zero-padded rendering is
`n / 10^(5-i) % 10`), and pack consecutive digit pairs as the nibbles of
3 bytes. -/
def encode_u24_bcd (v : Int) : List Nat :=
  let v1 : Int := if v < 0 then 0 else v
  let v2 : Int := if v1 > 999999 then 999999 else v1
  let n : Nat := v2.toNat
  [(n / 100000 % 10) * 16 + n / 10000 % 10,
   (n / 1000 % 10) * 16 + n / 100 % 10,
   (n / 10 % 10) * 16 + n % 10]

/-- The clamp of the BCD encoder expressed with max and min, used to state
the clamping claim independently of the encoder definition. -/
def clampBcd (v : Int) : Nat := (max 0 (min v 999999)).toNat

/-- A Python value handed to write_field: either an int or a byte string. -/
inductive PyValue where
  | int (v : Int)
  | bytes (b : List Nat)
deriving DecidableEq, Repr

/-- ASCII whitespace bytes stripped by the Python int() literal parse:
space, tab, linefeed, vertical tab, formfeed, carriage return. -/
def isAsciiSpace (c : Nat) : Bool :=
  c == 32 || c == 9 || c == 10 || c == 11 || c == 12 || c == 13

/-- The decimal value of an ASCII digit byte, none for any other byte. -/
def digitVal (c : Nat) : Option Nat :=
  if 48 ≤ c ∧ c ≤ 57 then some (c - 48) else none

/-- Continuation of the Python decimal digit-part parse after at least one
digit: further digits accumulate, a single underscore is allowed only when
immediately followed by another digit, anything else fails. -/
def parseDigitTail (acc : Nat) : List Nat → Option Nat
  | [] => some acc
  | c :: rest =>
      if c = 95 then
        match rest with
        | [] => none
        | d :: rest2 =>
            match digitVal d with
            | some dv => parseDigitTail (acc * 10 + dv) rest2
            | none => none
      else
        match digitVal c with
        | some dv => parseDigitTail (acc * 10 + dv) rest
        | none => none

/-- The Python decimal digit-part parse: one or more ASCII digits with
single underscores permitted between digits. -/
def parseDigits : List Nat → Option Nat
  | [] => none
  | c :: rest =>
      match digitVal c with
      | some dv => parseDigitTail dv rest
      | none => none

/-- Python int(value) applied to a byte string in base 10: the bytes are
read as an ASCII integer literal - optional surrounding ASCII whitespace,
an optional sign, then a nonempty digit part - and any other content
raises ValueError. For example int applied to b"42" is 42. -/
def pyIntOfBytes (b : List Nat) : Except String Int :=
  let core := ((b.dropWhile isAsciiSpace).reverse.dropWhile isAsciiSpace).reverse
  let parsed : Option Int :=
    match core with
    | 43 :: rest => (parseDigits rest).map fun n => (n : Int)
    | 45 :: rest => (parseDigits rest).map fun n => -(n : Int)
    | l => (parseDigits l).map fun n => (n : Int)
  match parsed with
  | some v => .ok v
  | none => .error "ValueError: invalid literal for int() with base 10"

/-- write_field ( def write_field ): dispatch on the field encoding, encode
the value, then invoke the writer once with `(field.addr, encoded)`. The
result is the trace of writer invocations. The Python builtin conversions
of each branch are inlined per value shape: `int(value)` on a byte string
parses it as an ASCII integer literal via pyIntOfBytes (raising on any
other content), and `bytes(value)` on an int n yields n zero bytes
(raising when n is negative). For BYTES/TEXT_GSC the byte length is
checked against `field.size` before the writer is called. -/
def write_field (field : MemField) (value : PyValue) :
    Except String (List (Int × List Nat)) :=
  match field.enc, value with
  | .u8, .int v => .ok [(field.addr, [(Int.emod v 256).toNat])]
  | .u16_le, .int v => .ok [(field.addr, encode_u16_le v)]
  | .u16_be, .int v => .ok [(field.addr, encode_u16_be v)]
  | .u24_le, .int v => .ok [(field.addr, encode_u24_le v)]
  | .u24_bcd, .int v => .ok [(field.addr, encode_u24_bcd v)]
  | .u8, .bytes b =>
      match pyIntOfBytes b with
      | .error e => .error e
      | .ok v => .ok [(field.addr, [(Int.emod v 256).toNat])]
  | .u16_le, .bytes b =>
      match pyIntOfBytes b with
      | .error e => .error e
      | .ok v => .ok [(field.addr, encode_u16_le v)]
  | .u16_be, .bytes b =>
      match pyIntOfBytes b with
      | .error e => .error e
      | .ok v => .ok [(field.addr, encode_u16_be v)]
  | .u24_le, .bytes b =>
      match pyIntOfBytes b with
      | .error e => .error e
      | .ok v => .ok [(field.addr, encode_u24_le v)]
  | .u24_bcd, .bytes b =>
      match pyIntOfBytes b with
      | .error e => .error e
      | .ok v => .ok [(field.addr, encode_u24_bcd v)]
  | .bytes, .bytes b =>
      if b.length ≠ field.size then
        .error (field.key ++ ": byte length does not match field size")
      else
        .ok [(field.addr, b)]
  | .text_gsc, .bytes b =>
      if b.length ≠ field.size then
        .error (field.key ++ ": byte length does not match field size")
      else
        .ok [(field.addr, b)]
  | .bytes, .int n =>
      if n < 0 then .error "ValueError: negative count"
      else if (List.replicate n.toNat 0).length ≠ field.size then
        .error (field.key ++ ": byte length does not match field size")
      else
        .ok [(field.addr, List.replicate n.toNat 0)]
  | .text_gsc, .int n =>
      if n < 0 then .error "ValueError: negative count"
      else if (List.replicate n.toNat 0).length ≠ field.size then
        .error (field.key ++ ": byte length does not match field size")
      else
        .ok [(field.addr, List.replicate n.toNat 0)]

def PARTY_MON_STRUCT_SIZE : Int := 0x30
def PARTY_MON_1_BASE : Int := 0xDA2A

/-- party_mon_base ( def party_mon_base ): base address of the party slot
struct, defined for slot indices 0..5 and raising a range error otherwise. -/
def party_mon_base (slot : Int) : Except String Int :=
  if ¬ (0 ≤ slot ∧ slot ≤ 5) then
    .error "slot_index must be in range 0..5"
  else
    .ok (PARTY_MON_1_BASE + slot * PARTY_MON_STRUCT_SIZE)

def PARTY_MON_SPECIES_OFF : Int := 0x00
def PARTY_MON_HELD_ITEM_OFF : Int := 0x01
def PARTY_MON_MOVES_OFF : Int := 0x02
def PARTY_MON_ID_OFF : Int := 0x06
def PARTY_MON_EXP_OFF : Int := 0x08
def PARTY_MON_PP_OFF : Int := 0x17
def PARTY_MON_HAPPINESS_OFF : Int := 0x1B
def PARTY_MON_POKERUS_OFF : Int := 0x1C
def PARTY_MON_LEVEL_OFF : Int := 0x1F
def PARTY_MON_STATUS_OFF : Int := 0x20
def PARTY_MON_HP_OFF : Int := 0x22
def PARTY_MON_MAX_HP_OFF : Int := 0x24
def PARTY_MON_ATK_OFF : Int := 0x26
def PARTY_MON_DEF_OFF : Int := 0x28
def PARTY_MON_SPD_OFF : Int := 0x2A
def PARTY_MON_SPDEF_OFF : Int := 0x2C
def PARTY_MON_SPATK_OFF : Int := 0x2E

/-- The static core RAM field table ( RAM_FIELDS_CORE ), with the address
constants of the source inlined. The Python dict is modelled as the list of
its values (its keys equal the key component of each field). -/
def RAM_FIELDS_CORE : List MemField :=
  [⟨"player_sprite_id", 0xD1FF, 1, .u8, "Player sprite ID"⟩,
   ⟨"player_clothes", 0xD203, 1, .u8, "Player clothes"⟩,
   ⟨"options", 0xD199, 1, .u8, "Options byte"⟩,
   ⟨"trainer_id", 0xD1A1, 2, .u16_le, "Trainer ID"⟩,
   ⟨"player_name", 0xD1A3, 10, .text_gsc, "Player name (GSC text)"⟩,
   ⟨"wild_battles_enabled", 0xD20B, 1, .u8, "Wild battles flag"⟩,
   ⟨"player_x", 0xD20D, 1, .u8, "Player X"⟩,
   ⟨"player_y", 0xD20E, 1, .u8, "Player Y"⟩,
   ⟨"map_bank", 0xDA00, 1, .u8, "Map bank"⟩,
   ⟨"map_number", 0xDA01, 1, .u8, "Map number"⟩,
   ⟨"overworld_xy", 0xDA02, 2, .bytes, "Overworld X then Y"⟩,
   ⟨"money", 0xD573, 3, .u24_bcd, "Money (3-byte BCD)"⟩,
   ⟨"mom_money", 0xD576, 3, .u24_bcd, "Money held by Mom"⟩,
   ⟨"casino_coins", 0xD57A, 2, .u16_le, "Casino coins"⟩,
   ⟨"johto_badges", 0xD57C, 1, .u8, "Johto badges bitfield"⟩,
   ⟨"kanto_badges", 0xD57D, 1, .u8, "Kanto badges bitfield"⟩,
   ⟨"party_count", 0xDA22, 1, .u8, "Party count"⟩,
   ⟨"party_species", 0xDA23, 6, .bytes, "Party species list"⟩,
   ⟨"bag_item_count", 0xD5B7, 1, .u8, "Bag item count"⟩,
   ⟨"key_item_count", 0xD5E1, 1, .u8, "Key item count"⟩,
   ⟨"ball_count", 0xD5FC, 1, .u8, "Ball count"⟩,
   ⟨"pc_item_count", 0xD616, 1, .u8, "PC item count"⟩,
   ⟨"repel_steps", 0xD9EB, 1, .u8, "Repel steps left"⟩,
   ⟨"on_bike_flag", 0xD682, 1, .u8, "On bike flag"⟩,
   ⟨"battle_type", 0xD116, 1, .u8, "Battle type"⟩,
   ⟨"wild_species", 0xD0ED, 1, .u8, "Wild species"⟩,
   ⟨"wild_level", 0xD0FC, 1, .u8, "Wild/enemy level"⟩,
   ⟨"your_hp_battle", 0xCB1C, 2, .u16_be, "Your HP in battle"⟩,
   ⟨"enemy_status", 0xD0FD, 1, .u8, "Enemy status"⟩]

/-- Per-slot party field generator ( def party_fields_for_slot ): 17 typed
fields placed at fixed offsets from the slot base address. -/
def party_fields_for_slot (slot : Int) : Except String (List MemField) := do
  let base ← party_mon_base slot
  let pfx := "party[" ++ toString slot ++ "]"
  .ok
    [⟨pfx ++ ".species", base + PARTY_MON_SPECIES_OFF, 1, .u8, "Species"⟩,
     ⟨pfx ++ ".item", base + PARTY_MON_HELD_ITEM_OFF, 1, .u8, "Held item"⟩,
     ⟨pfx ++ ".moves", base + PARTY_MON_MOVES_OFF, 4, .bytes, "Moves"⟩,
     ⟨pfx ++ ".id", base + PARTY_MON_ID_OFF, 2, .u16_be, "OT/mon ID"⟩,
     ⟨pfx ++ ".exp", base + PARTY_MON_EXP_OFF, 3, .u24_le, "EXP"⟩,
     ⟨pfx ++ ".pp", base + PARTY_MON_PP_OFF, 4, .bytes, "PP"⟩,
     ⟨pfx ++ ".happiness", base + PARTY_MON_HAPPINESS_OFF, 1, .u8, "Happiness"⟩,
     ⟨pfx ++ ".pokerus", base + PARTY_MON_POKERUS_OFF, 1, .u8, "Pokerus"⟩,
     ⟨pfx ++ ".level", base + PARTY_MON_LEVEL_OFF, 1, .u8, "Level"⟩,
     ⟨pfx ++ ".status", base + PARTY_MON_STATUS_OFF, 2, .u16_be, "Status"⟩,
     ⟨pfx ++ ".hp", base + PARTY_MON_HP_OFF, 2, .u16_be, "HP"⟩,
     ⟨pfx ++ ".max_hp", base + PARTY_MON_MAX_HP_OFF, 2, .u16_be, "Max HP"⟩,
     ⟨pfx ++ ".atk", base + PARTY_MON_ATK_OFF, 2, .u16_be, "Attack"⟩,
     ⟨pfx ++ ".def", base + PARTY_MON_DEF_OFF, 2, .u16_be, "Defense"⟩,
     ⟨pfx ++ ".spd", base + PARTY_MON_SPD_OFF, 2, .u16_be, "Speed"⟩,
     ⟨pfx ++ ".spdef", base + PARTY_MON_SPDEF_OFF, 2, .u16_be, "Sp Def"⟩,
     ⟨pfx ++ ".spatk", base + PARTY_MON_SPATK_OFF, 2, .u16_be, "Sp Atk"⟩]

/-- All six party slots worth of generated fields
( def iter_all_party_fields ). Slot indices 0..5 always succeed, so the
error branch of the match is unreachable. -/
def iter_all_party_fields : List MemField :=
  (List.range 6).flatMap fun i =>
    match party_fields_for_slot (Int.ofNat i) with
    | .ok fs => fs
    | .error _ => []

/-- build_ram_catalog: the core table optionally extended with all party
fields. All keys are pairwise distinct, so the Python dict merge is
faithfully modelled by list concatenation. -/
def build_ram_catalog (includeParty : Bool) : List MemField :=
  if includeParty then RAM_FIELDS_CORE ++ iter_all_party_fields else RAM_FIELDS_CORE

/-- The byte width a successful write_field invocation must have for its
field to occupy exactly its declared region: the fixed codec width for
numeric encodings, and the declared size itself for the blob encodings. -/
def sizeMatchesEnc (f : MemField) : Bool :=
  match f.enc with
  | .u8 => f.size = 1
  | .u16_le => f.size = 2
  | .u16_be => f.size = 2
  | .u24_le => f.size = 3
  | .u24_bcd => f.size = 3
  | .bytes => true
  | .text_gsc => true

/-- ROM banked address ( dataclass RomBankAddr ). -/
structure RomBankAddr where
  bank : Int
  addr : Int
deriving DecidableEq, Repr

/-- bankaddr_to_file_offset ( def bankaddr_to_file_offset ): Game Boy ROM
banking translation. Bank 0 maps addresses 0x0000..0x3FFF directly; banks
at least 1 map addresses 0x4000..0x7FFF to `bank * 0x4000 + (addr - 0x4000)`;
everything else raises a range error. -/
def bankaddr_to_file_offset (p : RomBankAddr) : Except String Int :=
  if p.bank < 0 then
    .error "bank must be >= 0"
  else if p.bank = 0 then
    if ¬ (0x0000 ≤ p.addr ∧ p.addr ≤ 0x3FFF) then
      .error "bank 0 addr must be 0x0000..0x3FFF"
    else
      .ok p.addr
  else if ¬ (0x4000 ≤ p.addr ∧ p.addr ≤ 0x7FFF) then
    .error "bank>0 addr must be 0x4000..0x7FFF"
  else
    .ok (p.bank * 0x4000 + (p.addr - 0x4000))

/-- Half-open ROM file byte range ( dataclass RomRange ). -/
structure RomRange where
  start_off : Nat
  end_off_excl : Nat
  desc : String := ""
deriving DecidableEq, Repr

/-- ROM field location kind ( class RomLocKind ). -/
inductive RomLocKind where
  | file_range
  | bank_addr
deriving DecidableEq, Repr

/-- ROM field descriptor ( dataclass RomField ). -/
structure RomField where
  key : String
  kind : RomLocKind
  desc : String
  file_range : Option RomRange := none
  bank_addr : Option RomBankAddr := none
  size : Option Nat := none
deriving DecidableEq, Repr

/-- read_rom_range ( def read_rom_range ): the Python slice
`rom[r.start_off : r.end_off_excl]` for nonnegative bounds. -/
def read_rom_range (rom : List Nat) (r : RomRange) : List Nat :=
  (rom.drop r.start_off).take (r.end_off_excl - r.start_off)

/-- read_rom_bankaddr ( def read_rom_bankaddr ): translate the banked
address, then slice `size` bytes from the file offset. -/
def read_rom_bankaddr (rom : List Nat) (p : RomBankAddr) (size : Nat) :
    Except String (List Nat) := do
  let off ← bankaddr_to_file_offset p
  .ok ((rom.drop off.toNat).take size)

/-- read_rom_field ( def read_rom_field ): dispatch on the location kind;
a FILE_RANGE field without a populated range (and a BANK_ADDR field without
both a bank address and a size) raises a missing-field error. -/
def read_rom_field (rom : List Nat) (f : RomField) : Except String (List Nat) :=
  match f.kind with
  | .file_range =>
      match f.file_range with
      | none => .error (f.key ++ ": missing file_range")
      | some r => .ok (read_rom_range rom r)
  | .bank_addr =>
      match f.bank_addr, f.size with
      | some p, some sz => read_rom_bankaddr rom p sz
      | _, _ => .error (f.key ++ ": missing bank_addr/size")

/-- A concrete 4-byte BYTES field used to instantiate the write_field
length-check theorem. -/
def sampleBytesField : MemField := ⟨"party[0].moves", 0xDA2C, 4, .bytes, "Moves"⟩

/-- A concrete FILE_RANGE ROM field used to instantiate the read_rom_field
theorem. -/
def sampleRomField : RomField :=
  ⟨"wild.sample", .file_range, "sample range", some ⟨1, 4, ""⟩, none, none⟩

/-- A FILE_RANGE ROM field whose range is left unpopulated. -/
def sampleRomFieldMissing : RomField :=
  ⟨"wild.missing", .file_range, "no range", none, none, none⟩

/-- Characterization of the successful results of bankaddr_to_file_offset,
shared by the theorems about the banking translation. -/
theorem bankaddr_ok_iff (bank addr o : Int) :
    bankaddr_to_file_offset ⟨bank, addr⟩ = .ok o ↔
      ((bank = 0 ∧ 0 ≤ addr ∧ addr ≤ 0x3FFF ∧ o = addr) ∨
       (1 ≤ bank ∧ 0x4000 ≤ addr ∧ addr ≤ 0x7FFF ∧
        o = bank * 0x4000 + (addr - 0x4000))) := by
  unfold bankaddr_to_file_offset
  split_ifs with h1 h2 h3 <;> simp_all <;> omega

/-- C3: bankaddr_to_file_offset returns addr itself for bank 0 with addr in
0x0000..0x3FFF, returns bank * 0x4000 + (addr - 0x4000) for bank at least 1
with addr in 0x4000..0x7FFF, and raises a range error in every other case. -/
theorem bankaddr_to_file_offset_spec (bank addr : Int) :
    (bank = 0 → 0 ≤ addr → addr ≤ 0x3FFF →
      bankaddr_to_file_offset ⟨bank, addr⟩ = .ok addr) ∧
    (1 ≤ bank → 0x4000 ≤ addr → addr ≤ 0x7FFF →
      bankaddr_to_file_offset ⟨bank, addr⟩ = .ok (bank * 0x4000 + (addr - 0x4000))) ∧
    (¬ ((bank = 0 ∧ 0 ≤ addr ∧ addr ≤ 0x3FFF) ∨
        (1 ≤ bank ∧ 0x4000 ≤ addr ∧ addr ≤ 0x7FFF)) →
      ∃ e, bankaddr_to_file_offset ⟨bank, addr⟩ = .error e) := by
  refine ⟨?_, ?_, ?_⟩
  · intro h0 ha hb
    rw [bankaddr_ok_iff]
    exact Or.inl ⟨h0, ha, hb, rfl⟩
  · intro h1 ha hb
    rw [bankaddr_ok_iff]
    exact Or.inr ⟨h1, ha, hb, rfl⟩
  · intro hbad
    unfold bankaddr_to_file_offset
    dsimp only at *
    split_ifs with h1 h2 h3 <;> first | exact ⟨_, rfl⟩ | (exfalso; omega)

/-- Witness for C3 at concrete inputs: bank 0 address 0x2DFD maps to itself,
bank 2 address 0x4000 maps to 0x8000, and bank 0 address 0x4000 raises. -/
theorem bankaddr_to_file_offset_spec_witness :
    bankaddr_to_file_offset ⟨0, 0x2DFD⟩ = .ok 0x2DFD ∧
    bankaddr_to_file_offset ⟨2, 0x4000⟩ = .ok 0x8000 ∧
    ∃ e, bankaddr_to_file_offset ⟨0, 0x4000⟩ = .error e :=
  ⟨(bankaddr_to_file_offset_spec 0 0x2DFD).1 rfl (by decide) (by decide),
   (bankaddr_to_file_offset_spec 2 0x4000).2.1 (by decide) (by decide) (by decide),
   (bankaddr_to_file_offset_spec 0 0x4000).2.2 (by decide)⟩

/-- C10: the banking translation is injective on its accepted domain - two
valid (bank, addr) pairs that translate to the same file offset are equal,
so no two valid banked addresses alias the same ROM file byte. -/
theorem bankaddr_to_file_offset_injective (b1 a1 b2 a2 o : Int)
    (h1 : bankaddr_to_file_offset ⟨b1, a1⟩ = .ok o)
    (h2 : bankaddr_to_file_offset ⟨b2, a2⟩ = .ok o) :
    b1 = b2 ∧ a1 = a2 := by
  rw [bankaddr_ok_iff] at h1 h2
  rcases h1 with ⟨hb1, h1⟩ | ⟨hb1, h1⟩ <;> rcases h2 with ⟨hb2, h2⟩ | ⟨hb2, h2⟩ <;>
    constructor <;> omega

/-- Witness for C10 at a concrete offset: both hypotheses are discharged at
the pair (bank 2, addr 0x4123). -/
theorem bankaddr_to_file_offset_injective_witness :
    (2 : Int) = 2 ∧ (0x4123 : Int) = 0x4123 :=
  bankaddr_to_file_offset_injective 2 0x4123 2 0x4123 0x8123 rfl rfl

/-- C5: party_mon_base returns 0xDA2A + slot * 0x30 for every slot in 0..5
and raises a range error for every integer slot outside 0..5. -/
theorem party_mon_base_spec (slot : Int) :
    (0 ≤ slot → slot ≤ 5 → party_mon_base slot = .ok (0xDA2A + slot * 0x30)) ∧
    (slot < 0 ∨ 5 < slot → ∃ e, party_mon_base slot = .error e) := by
  constructor
  · intro h0 h5
    unfold party_mon_base
    rw [if_neg (by omega)]
    rfl
  · intro hout
    unfold party_mon_base
    rw [if_pos]
    · exact ⟨_, rfl⟩
    · omega

/-- Witness for C5 at the concrete slots 4 and 6. -/
theorem party_mon_base_spec_witness :
    party_mon_base 4 = .ok (0xDA2A + 4 * 0x30) ∧
    ∃ e, party_mon_base 6 = .error e :=
  ⟨(party_mon_base_spec 4).1 (by decide) (by decide),
   (party_mon_base_spec 6).2 (by decide)⟩

/-- C6 counterexample: the claimed stride identity quantified over all slots
in 0..5 inclusive fails, because at slot 5 the term party_mon_base (5 + 1)
is a range error rather than a successful address. -/
theorem party_mon_base_stride_counterexample :
    ¬ (∀ slot : Int, 0 ≤ slot → slot ≤ 5 →
        ∃ a b, party_mon_base (slot + 1) = .ok a ∧ party_mon_base slot = .ok b ∧
          a - b = 0x30) := by
  intro h
  obtain ⟨a, b, h1, -, -⟩ := h 5 (by decide) (by decide)
  rw [show (5 : Int) + 1 = 6 by decide] at h1
  unfold party_mon_base at h1
  rw [if_pos (by decide)] at h1
  exact Except.noConfusion h1

/-- C6 (amended): for every slot in 0..4 the bases of consecutive party
slots are both defined and differ by exactly 0x30. -/
theorem party_mon_base_stride (slot : Int) (h0 : 0 ≤ slot) (h4 : slot ≤ 4) :
    ∃ a b, party_mon_base (slot + 1) = .ok a ∧ party_mon_base slot = .ok b ∧
      a - b = 0x30 := by
  refine ⟨0xDA2A + (slot + 1) * 0x30, 0xDA2A + slot * 0x30, ?_, ?_, by ring⟩
  · unfold party_mon_base
    rw [if_neg (by omega)]
    rfl
  · unfold party_mon_base
    rw [if_neg (by omega)]
    rfl

/-- Witness for the amended C6 at the concrete slot 2. -/
theorem party_mon_base_stride_witness :
    ∃ a b, party_mon_base (2 + 1) = .ok a ∧ party_mon_base 2 = .ok b ∧
      a - b = 0x30 :=
  party_mon_base_stride 2 (by decide) (by decide)

/-- C1: for a BYTES or TEXT_GSC field, write_field raises a length-mismatch
error without invoking the writer when the byte value length differs from
the declared field size (so the underlying storage is unchanged), and
invokes the writer exactly once with (field.addr, value) when it matches. -/
theorem write_field_bytes_length_check (f : MemField) (b : List Nat)
    (henc : f.enc = Encoding.bytes ∨ f.enc = Encoding.text_gsc) :
    (b.length ≠ f.size → ∃ e, write_field f (PyValue.bytes b) = .error e) ∧
    (b.length = f.size → write_field f (PyValue.bytes b) = .ok [(f.addr, b)]) := by
  obtain ⟨key, addr, size, enc, doc⟩ := f
  rcases henc with h | h <;> cases h <;>
    constructor <;> intro hlen <;>
    simp_all [write_field]

/-- Witness for C1 on a concrete 4-byte BYTES field: a 3-byte value is
rejected before any write, a 4-byte value produces exactly one writer
invocation with the field address and the value. -/
theorem write_field_bytes_length_check_witness :
    (∃ e, write_field sampleBytesField (PyValue.bytes [1, 2, 3]) = .error e) ∧
    write_field sampleBytesField (PyValue.bytes [1, 2, 3, 4]) =
      .ok [(0xDA2C, [1, 2, 3, 4])] :=
  ⟨(write_field_bytes_length_check sampleBytesField [1, 2, 3] (Or.inl rfl)).1
      (by decide),
   (write_field_bytes_length_check sampleBytesField [1, 2, 3, 4] (Or.inl rfl)).2
      (by decide)⟩

/-- C7: the BCD decoder is a total function of an arbitrary 3-byte input -
nibbles larger than 9 are folded in literally - and its value is the
multiply-accumulate over the six nibbles taken in order byte0-high,
byte0-low, byte1-high, byte1-low, byte2-high, byte2-low. -/
theorem decode_u24_bcd_total_form (x0 x1 x2 : Nat) :
    decode_u24_bcd [x0, x1, x2] =
      ((((((0 * 10 + x0 / 16 % 16) * 10 + x0 % 16) * 10 + x1 / 16 % 16) * 10 +
        x1 % 16) * 10 + x2 / 16 % 16) * 10 + x2 % 16) := by
  rfl

/-- C2: decoding the 3-byte BCD encoding of any v in [0, 999999] yields v
back. -/
theorem bcd_round_trip (v : Nat) (h : v ≤ 999999) :
    decode_u24_bcd (encode_u24_bcd (v : Int)) = v := by
  have h1 : ¬ ((v : Int) < 0) := by omega
  have h2 : ¬ ((v : Int) > 999999) := by omega
  simp only [encode_u24_bcd, if_neg h1, gt_iff_lt, if_neg (by omega : ¬ (999999 : Int) < (v : Int)),
    Int.toNat_natCast]
  simp only [decode_u24_bcd, List.foldr, List.foldl]
  omega

/-- Witness for C2 at the concrete value 123456. -/
theorem bcd_round_trip_witness :
    decode_u24_bcd (encode_u24_bcd ((123456 : Nat) : Int)) = 123456 :=
  bcd_round_trip 123456 (by decide)

/-- C4: the BCD encoder silently clamps its argument into [0, 999999]
(negative inputs encode like 0, inputs above 999999 encode like 999999) and
produces the 6 decimal digits of the clamped value packed as nibble pairs
into 3 bytes. -/
theorem encode_u24_bcd_clamps (v : Int) :
    (v < 0 → encode_u24_bcd v = encode_u24_bcd 0) ∧
    (999999 < v → encode_u24_bcd v = encode_u24_bcd 999999) ∧
    encode_u24_bcd v =
      [(clampBcd v / 100000 % 10) * 16 + clampBcd v / 10000 % 10,
       (clampBcd v / 1000 % 10) * 16 + clampBcd v / 100 % 10,
       (clampBcd v / 10 % 10) * 16 + clampBcd v % 10] := by
  have key : ∀ w : Int, encode_u24_bcd w =
      [(clampBcd w / 100000 % 10) * 16 + clampBcd w / 10000 % 10,
       (clampBcd w / 1000 % 10) * 16 + clampBcd w / 100 % 10,
       (clampBcd w / 10 % 10) * 16 + clampBcd w % 10] := by
    intro w
    have hn : (if (if w < 0 then (0 : Int) else w) > 999999 then (999999 : Int)
        else if w < 0 then (0 : Int) else w).toNat = clampBcd w := by
      unfold clampBcd
      split_ifs <;> omega
    simp only [encode_u24_bcd]
    rw [hn]
  refine ⟨fun hv => ?_, fun hv => ?_, key v⟩
  · rw [key v, key 0]
    have hc : clampBcd v = clampBcd 0 := by unfold clampBcd; omega
    rw [hc]
  · rw [key v, key 999999]
    have hc : clampBcd v = clampBcd 999999 := by unfold clampBcd; omega
    rw [hc]

/-- Witness for C4 at the concrete out-of-range inputs -7 and 1000000. -/
theorem encode_u24_bcd_clamps_witness :
    encode_u24_bcd (-7) = encode_u24_bcd 0 ∧
    encode_u24_bcd 1000000 = encode_u24_bcd 999999 :=
  ⟨(encode_u24_bcd_clamps (-7)).1 (by decide),
   (encode_u24_bcd_clamps 1000000).2.1 (by decide)⟩

/-- C8: for a FILE_RANGE ROM field with a populated range, read_rom_field
returns exactly the slice rom[start_off : end_off_excl]; with the range
absent it raises a missing-field error. -/
theorem read_rom_field_file_range (rom : List Nat) (f : RomField)
    (hk : f.kind = RomLocKind.file_range) :
    (∀ r, f.file_range = some r →
      read_rom_field rom f =
        .ok ((rom.drop r.start_off).take (r.end_off_excl - r.start_off))) ∧
    (f.file_range = none → ∃ e, read_rom_field rom f = .error e) := by
  obtain ⟨key, kind, desc, fr, ba, sz⟩ := f
  cases hk
  constructor
  · intro r hr
    simp only at hr
    subst hr
    rfl
  · intro hr
    simp only at hr
    subst hr
    exact ⟨_, rfl⟩

/-- Witness for C8 on a concrete 6-byte ROM buffer and the sample field with
range [1, 4): the result is exactly bytes 1..3, and the field with no range
raises. -/
theorem read_rom_field_file_range_witness :
    read_rom_field [10, 11, 12, 13, 14, 15] sampleRomField = .ok [11, 12, 13] ∧
    ∃ e, read_rom_field [10, 11, 12, 13, 14, 15] sampleRomFieldMissing = .error e := by
  constructor
  · have h := (read_rom_field_file_range [10, 11, 12, 13, 14, 15] sampleRomField
      rfl).1 ⟨1, 4, ""⟩ rfl
    simpa using h
  · exact (read_rom_field_file_range [10, 11, 12, 13, 14, 15] sampleRomFieldMissing
      rfl).2 rfl

set_option maxRecDepth 8000 in
/-- Helper: every field of the full RAM catalog (core table plus the six
generated party slots) declares a size that agrees with the width of its
encoding. -/
theorem catalog_sizes_match : ∀ f ∈ build_ram_catalog true, sizeMatchesEnc f = true := by
  decide

/-- Helper: whenever write_field succeeds on a field whose declared size
agrees with its encoding width, every writer invocation in its trace
carries exactly field.size bytes. -/
theorem write_field_ok_length (f : MemField) (v : PyValue)
    (calls : List (Int × List Nat)) (hok : write_field f v = .ok calls)
    (hsz : sizeMatchesEnc f = true) :
    ∀ c ∈ calls, c.2.length = f.size := by
  obtain ⟨key, addr, size, enc, doc⟩ := f
  cases enc <;> cases v <;>
    simp only [write_field] at hok <;>
    (try split at hok) <;>
    (try split_ifs at hok) <;>
    (try simp only [Except.ok.injEq, reduceCtorEq] at hok) <;>
    (try subst hok) <;>
    simp_all [sizeMatchesEnc, encode_u16_le, encode_u16_be, encode_u24_le,
      encode_u24_bcd]

/-- C9: for every field of the catalog built by build_ram_catalog and every
accepted value, the byte string write_field hands to the writer has length
exactly field.size, so a successful write never spills into or falls short
of the field byte region. -/
theorem catalog_write_width_invariant (f : MemField)
    (hf : f ∈ build_ram_catalog true) (v : PyValue)
    (calls : List (Int × List Nat)) (hok : write_field f v = .ok calls) :
    ∀ c ∈ calls, c.2.length = f.size :=
  write_field_ok_length f v calls hok (catalog_sizes_match f hf)

/-- Witness for C9 on the money field of the catalog: writing the int
123456 invokes the writer with 3 bytes, matching the declared size 3. -/
theorem catalog_write_width_invariant_witness :
    (((0xD573 : Int), [(0x12 : Nat), 0x34, 0x56]).2).length = 3 :=
  catalog_write_width_invariant
    ⟨"money", 0xD573, 3, .u24_bcd, "Money (3-byte BCD)"⟩ (by decide)
    (PyValue.int 123456) [((0xD573 : Int), [0x12, 0x34, 0x56])] rfl
    ((0xD573 : Int), [0x12, 0x34, 0x56]) (by simp)

end GscMemoryLib
